import Mathlib

/-!
Verification of the two-pass streaming abundance trimmer
(`scripts/trim-low-abund.py`).

The core is the `Trimmer` class (classification / trimming of units of one
or two reads, with run statistics) and the two-pass orchestration in `main`
(pass 1 over the input files with a per-file spill sink, pass 2 over the
spilled reads with no spill sink, then aggregate statistics).

The abundance oracle (`khmer` counting hash), the record pairer
(`broken_paired_reader`) and the record type (`screed.Record`) live in the
repository outside the script; they are modelled abstractly from the spec's
collaborator contracts where noted.
-/

/-- A sequencing record (`screed.Record`): a name, a base sequence, and an
optional quality string (`hasattr(read, 'quality')`). -/
structure Record where
  name : String
  sequence : List Char
  quality : Option (List Char)
deriving DecidableEq, Repr

/-- Modelled from the spec: `len(read)` of a parsed record, as used in the
skipped-base and written-base accounting, is its number of bases (the
record type itself is external to the script). -/
def Record.len (r : Record) : Nat :=
  r.sequence.length

/-- `trim_record(read, trim_at)` (lines 40-47): a new record holding the
first `trim_at` bases of `read`, with the quality string truncated to match
when present. -/
def trim_record (read : Record) (trim_at : Nat) : Record :=
  { name := read.name
    sequence := read.sequence.take trim_at
    quality := read.quality.map (fun q => q.take trim_at) }

/-- Modelled from the spec: the abundance oracle (the `khmer` counting hash,
external to the script), as the injected capability of spec section 6:
a fixed k-mer size, a read-only median-abundance query returning a
(median, min, max) triple, a read-only trim-position query returning a
(trimmed-sequence-surrogate, trim position) pair of which the script uses
only the position, and a state-mutating `consume`.  The state type is
abstract. -/
structure Oracle (σ : Type) where
  ksize : Nat
  get_median_count : σ → List Char → Nat × Nat × Nat
  trim_on_abundance : σ → List Char → Nat → Nat × Nat
  consume : σ → List Char → σ

/-- A unit of the paired stream: `broken_paired_reader` yields either a
single read or a pair that must be handled together (lines 135-138). -/
inductive SeqUnit where
  | single (read1 : Record)
  | pair (read1 read2 : Record)
deriving DecidableEq, Repr

/-- The member reads of a unit, in order (`reads = (read1, read2)` or
`(read1,)`). -/
def SeqUnit.reads : SeqUnit → List Record
  | .single r => [r]
  | .pair r1 r2 => [r1, r2]

/-- Cleaning for abundance examination (line 142):
`read.sequence.replace('N', 'A')`. -/
def clean (s : List Char) : List Char :=
  s.map (fun c => if c = 'N' then 'A' else c)

/-- The `Trimmer` configuration (constructor arguments, lines 112-116). -/
structure TrimmerConfig where
  do_trim_low_abund : Bool
  cutoff : Nat
  normalize_limit : Nat

/-- The `Trimmer` run statistics (lines 118-123), shared across both
passes. -/
structure Stats where
  n_reads : Nat
  n_bp : Nat
  trimmed_reads : Nat
  n_saved : Nat
  n_skipped : Nat
  bp_skipped : Nat
deriving DecidableEq, Repr

/-- The statistics of a fresh `Trimmer` (lines 118-123): all zero. -/
def Stats.init : Stats :=
  ⟨0, 0, 0, 0, 0, 0⟩

/-- The outcome of processing one unit: the oracle state after the unit,
the updated statistics, the records written to the spill sink (`saver`),
and the records yielded to the caller. -/
structure UnitResult (σ : Type) where
  st : σ
  stats : Stats
  saved : List Record
  emitted : List Record

/-- The low-coverage test (lines 149-154): some cleaned member sequence has
median count strictly below the normalize limit.  `get_median_count` is a
read-only query, so the early `break` of the source loop is equivalent to
`List.any`. -/
def isLowCoverage (g : Oracle σ) (st : σ) (normalize_limit : Nat)
    (examine : List (List Char)) : Bool :=
  examine.any (fun r => decide ((g.get_median_count st r).1 < normalize_limit))

/-- Branch 1 (lines 156-162): low coverage with a spill sink present.
Each cleaned sequence is consumed into the oracle, each original read is
written to the sink, the saved-read counter grows by one per read, and
nothing is emitted. -/
def deferUnit (g : Oracle σ) (st : σ) (stats : Stats)
    (reads : List Record) (examine : List (List Char)) : UnitResult σ :=
  { st := examine.foldl g.consume st
    stats := { stats with n_saved := stats.n_saved + reads.length }
    saved := reads
    emitted := [] }

/-- Branch 2 (lines 164-170): low coverage, no spill sink, trimming of low
abundance disabled.  Each read is yielded unchanged and the skip counters
grow. -/
def skipUnit (st : σ) (stats : Stats) (reads : List Record) : UnitResult σ :=
  { st := st
    stats := { stats with
      n_skipped := stats.n_skipped + reads.length
      bp_skipped := stats.bp_skipped + (reads.map Record.len).sum }
    saved := []
    emitted := reads }

/-- One read of branch 3 (lines 175-181): query the trim position on the
cleaned sequence; when it is at least K, emit the truncated record,
otherwise emit the read unmodified. -/
def resolveRead (g : Oracle σ) (st : σ) (K cutoff : Nat)
    (read : Record) (seq : List Char) : Record :=
  let trim_at := (g.trim_on_abundance st seq cutoff).2
  if K ≤ trim_at then trim_record read trim_at else read

/-- The trimmed-read counter condition of branch 3 (lines 177-179): the
trim position is at least K and differs from the cleaned length. -/
def countsAsTrimmed (g : Oracle σ) (st : σ) (K cutoff : Nat)
    (seq : List Char) : Bool :=
  let trim_at := (g.trim_on_abundance st seq cutoff).2
  decide (K ≤ trim_at) && decide (trim_at ≠ seq.length)

/-- Branch 3 (lines 171-181): resolve each (read, cleaned-sequence) pair,
yielding one record per read; the oracle state is only queried.  The source
loop carries no state between iterations except the trimmed-read counter,
so it is a map plus a count. -/
def resolveUnit (g : Oracle σ) (st : σ) (K cutoff : Nat) (stats : Stats)
    (reads : List Record) (examine : List (List Char)) : UnitResult σ :=
  { st := st
    stats := { stats with
      trimmed_reads := stats.trimmed_reads +
        (reads.zip examine).countP
          (fun p => countsAsTrimmed g st K cutoff p.2) }
    saved := []
    emitted := (reads.zip examine).map
      (fun p => resolveRead g st K cutoff p.1 p.2) }

/-- The cleaned member sequences of a unit (lines 140-143). -/
def examineOf (u : SeqUnit) : List (List Char) :=
  u.reads.map (fun read => clean read.sequence)

/-- The input counting of lines 141-146: one reads-seen increment and one
bases-seen increment (by the cleaned length) per member read, before any
branch is chosen. -/
def countInput (stats : Stats) (reads : List Record)
    (examine : List (List Char)) : Stats :=
  { stats with
    n_reads := stats.n_reads + reads.length
    n_bp := stats.n_bp + (examine.map List.length).sum }

/-- One iteration of `Trimmer.__call__` (lines 131-181) on one unit.
`saver` records whether a spill sink was supplied (a Python file object is
truthy, `None` is falsy).  The input counters are bumped for every member
read at input time (lines 141-146), then the unit is deferred, skipped or
resolved by the branch precedence of lines 156-181. -/
def processUnit (g : Oracle σ) (cfg : TrimmerConfig) (saver : Bool)
    (st : σ) (stats : Stats) (u : SeqUnit) : UnitResult σ :=
  let reads := u.reads
  let examine := examineOf u
  let stats := countInput stats reads examine
  let is_low_coverage := isLowCoverage g st cfg.normalize_limit examine
  if is_low_coverage && saver then
    deferUnit g st stats reads examine
  else if is_low_coverage && !cfg.do_trim_low_abund then
    skipUnit st stats reads
  else
    resolveUnit g st g.ksize cfg.cutoff stats reads examine

/-- The outcome of one whole `Trimmer.__call__` generator run over a unit
stream. -/
structure PassResult (σ : Type) where
  st : σ
  stats : Stats
  saved : List Record
  emitted : List Record

/-- `Trimmer.__call__` over a whole unit stream: fold `processUnit`,
concatenating the spilled and emitted records in stream order. -/
def processStream (g : Oracle σ) (cfg : TrimmerConfig) (saver : Bool) :
    σ → Stats → List SeqUnit → PassResult σ
  | st, stats, [] => ⟨st, stats, [], []⟩
  | st, stats, u :: us =>
    let r := processUnit g cfg saver st stats u
    let rest := processStream g cfg saver r.st r.stats us
    ⟨rest.st, rest.stats, r.saved ++ rest.saved, r.emitted ++ rest.emitted⟩

/-- The `Trimmer` configuration built by `main` (lines 226-227):
`do_trim_low_abund` is `not args.variable_coverage`. -/
def mkConfig (variable_coverage : Bool) (cutoff normalize_to : Nat) :
    TrimmerConfig :=
  ⟨!variable_coverage, cutoff, normalize_to⟩

/-- Pass 1 (lines 226-252): one fresh `Trimmer` (statistics all zero) run
over the input units with a spill sink always supplied (`pass2fp`, an open
file object, hence truthy).  The per-file loops of `main` share the one
trimmer and oracle, so in file order they amount to one stream. -/
def pass1 (g : Oracle σ) (variable_coverage : Bool) (cutoff normalize_to : Nat)
    (st : σ) (units : List SeqUnit) : PassResult σ :=
  processStream g (mkConfig variable_coverage cutoff normalize_to) true st
    Stats.init units

/-- Modelled from the spec: the pass-2 reading of a spill store
(`broken_paired_reader(..., force_single=True)`, external to the script).
Spec section 4.2: the deferred reads are re-read as independent single
units, in the order they were written. -/
def pass2Units (saved : List Record) : List SeqUnit :=
  saved.map SeqUnit.single

/-- Pass 2 (lines 270-295): the same trimmer continues over the spilled
reads as single units, with no spill sink (`trimmer(paired_iter, None)`). -/
def pass2 (g : Oracle σ) (variable_coverage : Bool) (cutoff normalize_to : Nat)
    (p1 : PassResult σ) : PassResult σ :=
  processStream g (mkConfig variable_coverage cutoff normalize_to) false
    p1.st p1.stats (pass2Units p1.saved)

/-- The whole-run outcome tracked by `main`: final oracle state and
statistics, the records written to the output sinks in order, and the
written-read / written-base accumulators. -/
structure RunResult (σ : Type) where
  st : σ
  stats : Stats
  emitted : List Record
  written_reads : Nat
  written_bp : Nat

/-- `main`'s two passes (lines 219-295) with their output accounting:
pass 1 writes each emitted read and adds its length to both accumulators
(lines 248-251); pass 2 writes each emitted read and increments only the
written-read accumulator (lines 286-288) — `written_bp` is not touched in
the pass-2 loop. -/
def fullRun (g : Oracle σ) (variable_coverage : Bool)
    (cutoff normalize_to : Nat) (st : σ) (units : List SeqUnit) :
    RunResult σ :=
  let p1 := pass1 g variable_coverage cutoff normalize_to st units
  let p2 := pass2 g variable_coverage cutoff normalize_to p1
  { st := p2.st
    stats := p2.stats
    emitted := p1.emitted ++ p2.emitted
    written_reads := p1.emitted.length + p2.emitted.length
    written_bp := (p1.emitted.map Record.len).sum }

/-- The percent-of-bases statistic printed at the end of the run
(lines 316-317): `(1 - (written_bp / float(n_bp))) * 100.0`. -/
def percentBasesRemoved (written_bp n_bp : Nat) : ℚ :=
  (1 - (written_bp : ℚ) / (n_bp : ℚ)) * 100

/-- The observable steps of `main` before and around the first pass, in
program order. -/
inductive MainEffect where
  | exitCode (c : Nat)
  | reportConfig
  | checkInputsExist
  | checkDiskSpace
  | createCountgraph
  | makeTempDir
  | openOutput (name : String)
  | openInput (name : String)
  | openSpill (name : String)
deriving DecidableEq, Repr

/-- The start of `main` (lines 184-246): the duplicate-filename check
(lines 191-194, `len(set(...)) != len(...)` then `sys.exit(1)`) runs before
`report_on_config`, the file-existence and disk-space checks, countgraph
creation, `tempfile.mkdtemp` (line 215) and the per-file opening of the
output, input and spill files (lines 230-241). -/
def mainPrologue (input_filenames : List String) : List MainEffect :=
  if input_filenames.dedup.length ≠ input_filenames.length then
    [MainEffect.exitCode 1]
  else
    [MainEffect.reportConfig, MainEffect.checkInputsExist,
      MainEffect.checkDiskSpace, MainEffect.createCountgraph,
      MainEffect.makeTempDir] ++
    (input_filenames.map (fun f =>
      [MainEffect.openOutput (f ++ ".abundtrim"), MainEffect.openInput f,
        MainEffect.openSpill (f ++ ".pass2")])).flatten

/-- A deterministic stand-in oracle for concrete runs (spec section 9
recommends exactly such a stand-in): stateless, k-mer size 4, median
abundance always 0, trim position always the full length. -/
def demoOracle : Oracle Unit :=
  { ksize := 4
    get_median_count := fun _ _ => (0, 0, 0)
    trim_on_abundance := fun _ seq _ => (0, seq.length)
    consume := fun _ _ => () }

/-- A stand-in oracle whose trim position is 4 on every query, for
exercising the trimming branch. -/
def trimOracle : Oracle Unit :=
  { ksize := 4
    get_median_count := fun _ _ => (0, 0, 0)
    trim_on_abundance := fun _ _ _ => (0, 4)
    consume := fun _ _ => () }

/-- The single read of spec scenario A: 16 bases, no quality string. -/
def demoRead : Record :=
  ⟨"r1", "AAAACCCCAAAACCCC".toList, none⟩


/-! ### Helper lemmas -/

theorem SeqUnit.reads_ne_nil (u : SeqUnit) : u.reads ≠ [] := by
  cases u <;> simp [SeqUnit.reads]

theorem clean_length (s : List Char) : (clean s).length = s.length := by
  simp [clean]

theorem zip_map_self (l : List α) (f : α → β) :
    l.zip (l.map f) = l.map (fun a => (a, f a)) := by
  induction l with
  | nil => rfl
  | cons a t ih => simpa using ih

theorem examineOf_eq (u : SeqUnit) :
    u.reads.zip (examineOf u) =
      u.reads.map (fun rd => (rd, clean rd.sequence)) := by
  simp [examineOf, zip_map_self]

theorem processUnit_defer (g : Oracle σ) (cfg : TrimmerConfig)
    (st : σ) (stats : Stats) (u : SeqUnit)
    (hlc : isLowCoverage g st cfg.normalize_limit (examineOf u) = true) :
    processUnit g cfg true st stats u =
      deferUnit g st (countInput stats u.reads (examineOf u)) u.reads
        (examineOf u) := by
  simp [processUnit, hlc]

theorem processUnit_skip (g : Oracle σ) (cfg : TrimmerConfig)
    (st : σ) (stats : Stats) (u : SeqUnit)
    (hlc : isLowCoverage g st cfg.normalize_limit (examineOf u) = true)
    (hdt : cfg.do_trim_low_abund = false) :
    processUnit g cfg false st stats u =
      skipUnit st (countInput stats u.reads (examineOf u)) u.reads := by
  simp [processUnit, hlc, hdt]

theorem processUnit_resolve (g : Oracle σ) (cfg : TrimmerConfig)
    (saver : Bool) (st : σ) (stats : Stats) (u : SeqUnit)
    (h1 : (isLowCoverage g st cfg.normalize_limit (examineOf u) && saver)
      = false)
    (h2 : (isLowCoverage g st cfg.normalize_limit (examineOf u)
      && !cfg.do_trim_low_abund) = false) :
    processUnit g cfg saver st stats u =
      resolveUnit g st g.ksize cfg.cutoff
        (countInput stats u.reads (examineOf u)) u.reads (examineOf u) := by
  simp only [processUnit]
  rw [h1, h2]
  simp

theorem SeqUnit.reads_length_pos (u : SeqUnit) : 0 < u.reads.length := by
  cases u <;> simp [SeqUnit.reads]

theorem examineOf_length (u : SeqUnit) :
    (examineOf u).length = u.reads.length := by
  simp [examineOf]

theorem zip_examine_length (u : SeqUnit) :
    (u.reads.zip (examineOf u)).length = u.reads.length := by
  simp [examineOf]

theorem processUnit_n_reads (g : Oracle σ) (cfg : TrimmerConfig)
    (saver : Bool) (st : σ) (stats : Stats) (u : SeqUnit) :
    (processUnit g cfg saver st stats u).stats.n_reads =
      stats.n_reads + u.reads.length := by
  simp only [processUnit]
  split
  · simp [deferUnit, countInput]
  split
  · simp [skipUnit, countInput]
  · simp [resolveUnit, countInput]

theorem processUnit_n_bp (g : Oracle σ) (cfg : TrimmerConfig)
    (saver : Bool) (st : σ) (stats : Stats) (u : SeqUnit) :
    (processUnit g cfg saver st stats u).stats.n_bp =
      stats.n_bp + ((examineOf u).map List.length).sum := by
  simp only [processUnit]
  split
  · simp [deferUnit, countInput]
  split
  · simp [skipUnit, countInput]
  · simp [resolveUnit, countInput]

theorem processUnit_saved_count (g : Oracle σ) (cfg : TrimmerConfig)
    (saver : Bool) (st : σ) (stats : Stats) (u : SeqUnit) :
    (processUnit g cfg saver st stats u).stats.n_saved =
      stats.n_saved + (processUnit g cfg saver st stats u).saved.length := by
  simp only [processUnit]
  split
  · simp [deferUnit, countInput]
  split
  · simp [skipUnit, countInput]
  · simp [resolveUnit, countInput]

theorem processUnit_conserve (g : Oracle σ) (cfg : TrimmerConfig)
    (saver : Bool) (st : σ) (stats : Stats) (u : SeqUnit) :
    (processUnit g cfg saver st stats u).stats.n_reads + stats.n_saved =
      stats.n_reads + (processUnit g cfg saver st stats u).stats.n_saved +
        (processUnit g cfg saver st stats u).emitted.length := by
  simp only [processUnit]
  split
  · simp [deferUnit, countInput]
    omega
  split
  · simp [skipUnit, countInput]
    omega
  · simp [resolveUnit, countInput, examineOf_length]
    omega

theorem processStream_nil (g : Oracle σ) (cfg : TrimmerConfig) (saver : Bool)
    (st : σ) (stats : Stats) :
    processStream g cfg saver st stats [] = ⟨st, stats, [], []⟩ := rfl

theorem processStream_cons (g : Oracle σ) (cfg : TrimmerConfig) (saver : Bool)
    (st : σ) (stats : Stats) (u : SeqUnit) (us : List SeqUnit) :
    processStream g cfg saver st stats (u :: us) =
      ⟨(processStream g cfg saver (processUnit g cfg saver st stats u).st
          (processUnit g cfg saver st stats u).stats us).st,
        (processStream g cfg saver (processUnit g cfg saver st stats u).st
          (processUnit g cfg saver st stats u).stats us).stats,
        (processUnit g cfg saver st stats u).saved ++
          (processStream g cfg saver (processUnit g cfg saver st stats u).st
            (processUnit g cfg saver st stats u).stats us).saved,
        (processUnit g cfg saver st stats u).emitted ++
          (processStream g cfg saver (processUnit g cfg saver st stats u).st
            (processUnit g cfg saver st stats u).stats us).emitted⟩ := rfl

theorem processStream_conserve (g : Oracle σ) (cfg : TrimmerConfig)
    (saver : Bool) (us : List SeqUnit) :
    ∀ (st : σ) (stats : Stats),
      (processStream g cfg saver st stats us).stats.n_reads + stats.n_saved =
        stats.n_reads + (processStream g cfg saver st stats us).stats.n_saved +
          (processStream g cfg saver st stats us).emitted.length := by
  induction us with
  | nil => intro st stats; simp [processStream_nil]
  | cons u us ih =>
    intro st stats
    have hu := processUnit_conserve g cfg saver st stats u
    have hrest := ih (processUnit g cfg saver st stats u).st
      (processUnit g cfg saver st stats u).stats
    rw [processStream_cons]
    simp only [List.length_append]
    omega

theorem processStream_saved_count (g : Oracle σ) (cfg : TrimmerConfig)
    (saver : Bool) (us : List SeqUnit) :
    ∀ (st : σ) (stats : Stats),
      (processStream g cfg saver st stats us).stats.n_saved =
        stats.n_saved + (processStream g cfg saver st stats us).saved.length := by
  induction us with
  | nil => intro st stats; simp [processStream_nil]
  | cons u us ih =>
    intro st stats
    have hu := processUnit_saved_count g cfg saver st stats u
    have hrest := ih (processUnit g cfg saver st stats u).st
      (processUnit g cfg saver st stats u).stats
    rw [processStream_cons]
    simp only [List.length_append]
    omega

theorem processStream_n_reads (g : Oracle σ) (cfg : TrimmerConfig)
    (saver : Bool) (us : List SeqUnit) :
    ∀ (st : σ) (stats : Stats),
      (processStream g cfg saver st stats us).stats.n_reads =
        stats.n_reads + (us.map (fun u => u.reads.length)).sum := by
  induction us with
  | nil => intro st stats; simp [processStream_nil]
  | cons u us ih =>
    intro st stats
    have hu := processUnit_n_reads g cfg saver st stats u
    have hrest := ih (processUnit g cfg saver st stats u).st
      (processUnit g cfg saver st stats u).stats
    rw [processStream_cons]
    simp only [List.map_cons, List.sum_cons]
    omega

theorem processStream_n_bp (g : Oracle σ) (cfg : TrimmerConfig)
    (saver : Bool) (us : List SeqUnit) :
    ∀ (st : σ) (stats : Stats),
      (processStream g cfg saver st stats us).stats.n_bp =
        stats.n_bp +
          (us.map (fun u => ((examineOf u).map List.length).sum)).sum := by
  induction us with
  | nil => intro st stats; simp [processStream_nil]
  | cons u us ih =>
    intro st stats
    have hu := processUnit_n_bp g cfg saver st stats u
    have hrest := ih (processUnit g cfg saver st stats u).st
      (processUnit g cfg saver st stats u).stats
    rw [processStream_cons]
    simp only [List.map_cons, List.sum_cons]
    omega

theorem processUnit_skip_preserved (g : Oracle σ) (cfg : TrimmerConfig)
    (saver : Bool) (st : σ) (stats : Stats) (u : SeqUnit)
    (h : saver = true ∨ cfg.do_trim_low_abund = true) :
    (processUnit g cfg saver st stats u).stats.n_skipped = stats.n_skipped ∧
      (processUnit g cfg saver st stats u).stats.bp_skipped =
        stats.bp_skipped := by
  simp only [processUnit]
  split
  · simp [deferUnit, countInput]
  rename_i h1
  split
  · rename_i h2
    simp only [Bool.and_eq_true, Bool.not_eq_true'] at h2
    rcases h with hs | hd
    · exact absurd (by simp [h2.1, hs]) h1
    · rw [h2.2] at hd; cases hd
  · simp [resolveUnit, countInput]

theorem processStream_skip_preserved (g : Oracle σ) (cfg : TrimmerConfig)
    (saver : Bool) (us : List SeqUnit)
    (h : saver = true ∨ cfg.do_trim_low_abund = true) :
    ∀ (st : σ) (stats : Stats),
      (processStream g cfg saver st stats us).stats.n_skipped =
          stats.n_skipped ∧
        (processStream g cfg saver st stats us).stats.bp_skipped =
          stats.bp_skipped := by
  induction us with
  | nil => intro st stats; simp [processStream_nil]
  | cons u us ih =>
    intro st stats
    have hu := processUnit_skip_preserved g cfg saver st stats u h
    have hrest := ih (processUnit g cfg saver st stats u).st
      (processUnit g cfg saver st stats u).stats
    rw [processStream_cons]
    exact ⟨hrest.1.trans hu.1, hrest.2.trans hu.2⟩

theorem processUnit_emitted_length_noSaver (g : Oracle σ)
    (cfg : TrimmerConfig) (st : σ) (stats : Stats) (u : SeqUnit) :
    (processUnit g cfg false st stats u).emitted.length = u.reads.length := by
  simp only [processUnit]
  split
  · rename_i h1; simp at h1
  split
  · simp [skipUnit]
  · simp [resolveUnit, examineOf_length]

theorem processStream_emitted_length_noSaver (g : Oracle σ)
    (cfg : TrimmerConfig) (us : List SeqUnit) :
    ∀ (st : σ) (stats : Stats),
      (processStream g cfg false st stats us).emitted.length =
        (us.map (fun u => u.reads.length)).sum := by
  induction us with
  | nil => intro st stats; simp [processStream_nil]
  | cons u us ih =>
    intro st stats
    have hu := processUnit_emitted_length_noSaver g cfg st stats u
    have hrest := ih (processUnit g cfg false st stats u).st
      (processUnit g cfg false st stats u).stats
    rw [processStream_cons]
    simp only [List.length_append, List.map_cons, List.sum_cons]
    omega

theorem processUnit_st_preserved (g : Oracle σ) (cfg : TrimmerConfig)
    (saver : Bool) (st : σ) (stats : Stats) (u : SeqUnit)
    (h : (isLowCoverage g st cfg.normalize_limit (examineOf u) && saver)
      = false) :
    (processUnit g cfg saver st stats u).st = st := by
  simp only [processUnit]
  rw [h]
  simp only [Bool.false_eq_true, if_false]
  split
  · simp [skipUnit]
  · simp [resolveUnit]

theorem processStream_st_preserved_noSaver (g : Oracle σ)
    (cfg : TrimmerConfig) (us : List SeqUnit) :
    ∀ (st : σ) (stats : Stats),
      (processStream g cfg false st stats us).st = st := by
  induction us with
  | nil => intro st stats; simp [processStream_nil]
  | cons u us ih =>
    intro st stats
    have hu := processUnit_st_preserved g cfg false st stats u (by simp)
    have hrest := ih (processUnit g cfg false st stats u).st
      (processUnit g cfg false st stats u).stats
    rw [processStream_cons]
    rw [hrest, hu]

theorem isLowCoverage_iff (g : Oracle σ) (st : σ) (nl : Nat) (u : SeqUnit) :
    isLowCoverage g st nl (examineOf u) = true ↔
      ∃ rd ∈ u.reads, (g.get_median_count st (clean rd.sequence)).1 < nl := by
  simp [isLowCoverage, examineOf, List.any_map, List.any_eq_true,
    Function.comp]

theorem processUnit_saved_noDefer (g : Oracle σ) (cfg : TrimmerConfig)
    (saver : Bool) (st : σ) (stats : Stats) (u : SeqUnit)
    (h : (isLowCoverage g st cfg.normalize_limit (examineOf u) && saver)
      = false) :
    (processUnit g cfg saver st stats u).saved = [] := by
  simp only [processUnit]
  rw [h]
  simp only [Bool.false_eq_true, if_false]
  split
  · simp [skipUnit]
  · simp [resolveUnit]

/-- C1: a unit processed by `Trimmer.__call__` is deferred — its reads
written in order to the spill sink, the deferred-read counter incremented
by one per member read, nothing emitted — if and only if a spill sink is
supplied and at least one member's median-abundance estimate on its cleaned
sequence is strictly below the normalize limit. -/
theorem deferral_correctness (g : Oracle σ) (cfg : TrimmerConfig)
    (saver : Bool) (st : σ) (stats : Stats) (u : SeqUnit) :
    ((processUnit g cfg saver st stats u).saved = u.reads ∧
      (processUnit g cfg saver st stats u).stats.n_saved =
        stats.n_saved + u.reads.length ∧
      (processUnit g cfg saver st stats u).emitted = []) ↔
    (saver = true ∧ ∃ rd ∈ u.reads,
      (g.get_median_count st (clean rd.sequence)).1 < cfg.normalize_limit)
    := by
  cases saver with
  | false =>
    have hsaved := processUnit_saved_noDefer g cfg false st stats u (by simp)
    constructor
    · rintro ⟨h1, -, -⟩
      exact absurd (hsaved.symm.trans h1).symm (SeqUnit.reads_ne_nil u)
    · rintro ⟨h, -⟩; cases h
  | true =>
    cases hlc : isLowCoverage g st cfg.normalize_limit (examineOf u) with
    | true =>
      rw [processUnit_defer g cfg st stats u hlc]
      have hex := (isLowCoverage_iff g st cfg.normalize_limit u).mp hlc
      simp [deferUnit, countInput]
      exact hex
    | false =>
      have hne : ¬ ∃ rd ∈ u.reads,
          (g.get_median_count st (clean rd.sequence)).1 <
            cfg.normalize_limit := by
        intro hex
        rw [(isLowCoverage_iff g st cfg.normalize_limit u).mpr hex] at hlc
        cases hlc
      rw [processUnit_resolve g cfg true st stats u (by simp [hlc])
        (by simp [hlc])]
      constructor
      · rintro ⟨h1, -, -⟩
        have : (resolveUnit g st g.ksize cfg.cutoff
            (countInput stats u.reads (examineOf u)) u.reads
            (examineOf u)).saved = [] := by simp [resolveUnit]
        exact absurd (this.symm.trans h1).symm (SeqUnit.reads_ne_nil u)
      · rintro ⟨-, hex⟩
        exact absurd hex hne

/-- C1 witness: a concrete low-coverage single-read unit with a spill sink
present is deferred. -/
theorem deferral_correctness_witness :
    (processUnit demoOracle (mkConfig false 2 20) true () Stats.init
        (SeqUnit.single demoRead)).saved = (SeqUnit.single demoRead).reads ∧
      (processUnit demoOracle (mkConfig false 2 20) true () Stats.init
        (SeqUnit.single demoRead)).stats.n_saved =
          Stats.init.n_saved + (SeqUnit.single demoRead).reads.length ∧
      (processUnit demoOracle (mkConfig false 2 20) true () Stats.init
        (SeqUnit.single demoRead)).emitted = [] :=
  (deferral_correctness demoOracle (mkConfig false 2 20) true () Stats.init
    (SeqUnit.single demoRead)).mpr
    ⟨rfl, demoRead, by decide⟩

theorem trim_record_length (read : Record) (trim_at : Nat) :
    (trim_record read trim_at).sequence.length =
      min trim_at read.sequence.length := by
  simp [trim_record]

theorem resolveRead_length (g : Oracle σ) (st : σ) (K cutoff : Nat)
    (rd : Record) :
    (resolveRead g st K cutoff rd (clean rd.sequence)).sequence.length =
        rd.sequence.length ∨
      K ≤ (resolveRead g st K cutoff rd (clean rd.sequence)).sequence.length
    := by
  simp only [resolveRead]
  split
  · rename_i hK
    rw [trim_record_length]
    rcases le_or_lt (g.trim_on_abundance st (clean rd.sequence) cutoff).2
      rd.sequence.length with hle | hlt
    · right; omega
    · left; omega
  · left; rfl

/-- C2: every read emitted by one `Trimmer.__call__` step — in any branch,
under any cutoff and any oracle — has either the original length of one of
the unit's member reads or length at least K (the oracle's k-mer size): a
trim position below K leaves the read unmodified. -/
theorem trim_floor (g : Oracle σ) (cfg : TrimmerConfig) (saver : Bool)
    (st : σ) (stats : Stats) (u : SeqUnit) (out : Record)
    (hmem : out ∈ (processUnit g cfg saver st stats u).emitted) :
    (∃ rd ∈ u.reads, out.sequence.length = rd.sequence.length) ∨
      g.ksize ≤ out.sequence.length := by
  simp only [processUnit] at hmem
  split at hmem
  · simp [deferUnit] at hmem
  split at hmem
  · refine Or.inl ⟨out, ?_, rfl⟩
    simpa [skipUnit] using hmem
  · rw [show (resolveUnit g st g.ksize cfg.cutoff
        (countInput stats u.reads (examineOf u)) u.reads
        (examineOf u)).emitted =
      (u.reads.zip (examineOf u)).map
        (fun p => resolveRead g st g.ksize cfg.cutoff p.1 p.2) from rfl,
      examineOf_eq, List.map_map] at hmem
    rcases List.mem_map.mp hmem with ⟨rd, hrd, hout⟩
    simp only [Function.comp] at hout
    rcases resolveRead_length g st g.ksize cfg.cutoff rd with h | h
    · exact Or.inl ⟨rd, hrd, by rw [← hout]; exact h⟩
    · exact Or.inr (by rw [← hout]; exact h)

/-- C2 witness: the concrete resolved read keeps its original length. -/
theorem trim_floor_witness :
    (∃ rd ∈ (SeqUnit.single demoRead).reads,
        demoRead.sequence.length = rd.sequence.length) ∨
      demoOracle.ksize ≤ demoRead.sequence.length :=
  trim_floor demoOracle (mkConfig false 2 20) false () Stats.init
    (SeqUnit.single demoRead) demoRead (by decide)

/-- A deterministic stand-in oracle whose state counts `consume` calls, for
observing mutation. -/
def countOracle : Oracle Nat :=
  { ksize := 4
    get_median_count := fun st _ => (st, 0, 0)
    trim_on_abundance := fun _ seq _ => (0, seq.length)
    consume := fun st _ => st + 1 }

/-- C5: the oracle is mutated only by the deferral branch.  Whenever the
deferral condition fails, one `Trimmer.__call__` step leaves the oracle
state unchanged (the skip and trim branches only query); when a unit is
deferred, the new state is exactly the old state with each cleaned member
sequence consumed, in order; and a whole pass run with no spill sink —
pass 2 — never changes the oracle state, so a unit's sequences are
consumed at most once over the two passes. -/
theorem oracle_mutated_only_on_deferral (g : Oracle σ) (cfg : TrimmerConfig)
    (saver : Bool) (st : σ) (stats : Stats) (u : SeqUnit)
    (us : List SeqUnit) :
    ((isLowCoverage g st cfg.normalize_limit (examineOf u) && saver) = false →
      (processUnit g cfg saver st stats u).st = st) ∧
    ((isLowCoverage g st cfg.normalize_limit (examineOf u) = true ∧
        saver = true) →
      (processUnit g cfg saver st stats u).st =
        (examineOf u).foldl g.consume st) ∧
    (processStream g cfg false st stats us).st = st := by
  refine ⟨processUnit_st_preserved g cfg saver st stats u, ?_,
    processStream_st_preserved_noSaver g cfg us st stats⟩
  rintro ⟨hlc, hsv⟩
  subst hsv
  rw [processUnit_defer g cfg st stats u hlc]
  rfl

/-- C5 witness: deferring one concrete unit consumes its cleaned sequence
(the counting oracle's state becomes 1). -/
theorem oracle_mutated_only_on_deferral_witness :
    (processUnit countOracle (mkConfig false 2 20) true 0 Stats.init
        (SeqUnit.single demoRead)).st =
      (examineOf (SeqUnit.single demoRead)).foldl countOracle.consume 0 :=
  (oracle_mutated_only_on_deferral countOracle (mkConfig false 2 20) true 0
    Stats.init (SeqUnit.single demoRead) []).2.1 ⟨by decide, rfl⟩

/-- C6: a low-coverage unit processed with no spill sink while
trimming-of-low-abundance is disabled (variable-coverage mode) is emitted
unchanged, the skipped-read counter grows by one per member read, the
skipped-base counter by each read's bases; the oracle state, the
deferred-read counter, the spill output and the trimmed-read counter are
untouched. -/
theorem variable_coverage_skip (g : Oracle σ) (cfg : TrimmerConfig)
    (st : σ) (stats : Stats) (u : SeqUnit)
    (hlc : isLowCoverage g st cfg.normalize_limit (examineOf u) = true)
    (hdt : cfg.do_trim_low_abund = false) :
    (processUnit g cfg false st stats u).emitted = u.reads ∧
      (processUnit g cfg false st stats u).stats.n_skipped =
        stats.n_skipped + u.reads.length ∧
      (processUnit g cfg false st stats u).stats.bp_skipped =
        stats.bp_skipped + (u.reads.map Record.len).sum ∧
      (processUnit g cfg false st stats u).st = st ∧
      (processUnit g cfg false st stats u).saved = [] ∧
      (processUnit g cfg false st stats u).stats.n_saved = stats.n_saved ∧
      (processUnit g cfg false st stats u).stats.trimmed_reads =
        stats.trimmed_reads := by
  rw [processUnit_skip g cfg st stats u hlc hdt]
  simp [skipUnit, countInput]

/-- C6 witness: a concrete low-coverage single-read unit in
variable-coverage mode is skipped. -/
theorem variable_coverage_skip_witness :
    (processUnit demoOracle (mkConfig true 2 20) false () Stats.init
        (SeqUnit.single demoRead)).emitted =
      (SeqUnit.single demoRead).reads ∧
      (processUnit demoOracle (mkConfig true 2 20) false () Stats.init
        (SeqUnit.single demoRead)).stats.n_skipped =
        Stats.init.n_skipped + (SeqUnit.single demoRead).reads.length ∧
      (processUnit demoOracle (mkConfig true 2 20) false () Stats.init
        (SeqUnit.single demoRead)).stats.bp_skipped =
        Stats.init.bp_skipped +
          ((SeqUnit.single demoRead).reads.map Record.len).sum ∧
      (processUnit demoOracle (mkConfig true 2 20) false () Stats.init
        (SeqUnit.single demoRead)).st = () ∧
      (processUnit demoOracle (mkConfig true 2 20) false () Stats.init
        (SeqUnit.single demoRead)).saved = [] ∧
      (processUnit demoOracle (mkConfig true 2 20) false () Stats.init
        (SeqUnit.single demoRead)).stats.n_saved = Stats.init.n_saved ∧
      (processUnit demoOracle (mkConfig true 2 20) false () Stats.init
        (SeqUnit.single demoRead)).stats.trimmed_reads =
        Stats.init.trimmed_reads :=
  variable_coverage_skip demoOracle (mkConfig true 2 20) () Stats.init
    (SeqUnit.single demoRead) (by decide) rfl

/-- C7: when variable-coverage mode is off, the skip branch is unreachable
(with or without a spill sink), so the skipped-read and skipped-base
counters are still zero when the between-pass assertions of `main` check
them at the start of pass 2. -/
theorem skip_counters_zero_without_vc (g : Oracle σ) (cutoff nl : Nat)
    (saver : Bool) (st st2 : σ) (stats : Stats)
    (units units2 : List SeqUnit) :
    ((processStream g (mkConfig false cutoff nl) saver st2 stats
          units2).stats.n_skipped = stats.n_skipped ∧
      (processStream g (mkConfig false cutoff nl) saver st2 stats
          units2).stats.bp_skipped = stats.bp_skipped) ∧
    ((pass1 g false cutoff nl st units).stats.n_skipped = 0 ∧
      (pass1 g false cutoff nl st units).stats.bp_skipped = 0) := by
  have h1 := processStream_skip_preserved g (mkConfig false cutoff nl) saver
    units2 (Or.inr rfl) st2 stats
  have h2 := processStream_skip_preserved g (mkConfig false cutoff nl) true
    units (Or.inr rfl) st Stats.init
  exact ⟨h1, h2.1, h2.2⟩

/-- C10: during pass 1 a spill sink is always supplied, so the skip branch
is unreachable in pass 1 in every mode — any stream processed with a spill
sink leaves the skip counters untouched — and hence the unconditional
between-pass assertions hold on every run, variable-coverage mode
included. -/
theorem skip_branch_unreachable_pass1 (g : Oracle σ) (cfg : TrimmerConfig)
    (vc : Bool) (cutoff nl : Nat) (st st2 : σ) (stats : Stats)
    (units units2 : List SeqUnit) :
    ((processStream g cfg true st2 stats units2).stats.n_skipped =
        stats.n_skipped ∧
      (processStream g cfg true st2 stats units2).stats.bp_skipped =
        stats.bp_skipped) ∧
    ((pass1 g vc cutoff nl st units).stats.n_skipped = 0 ∧
      (pass1 g vc cutoff nl st units).stats.bp_skipped = 0) := by
  have h1 := processStream_skip_preserved g cfg true units2 (Or.inl rfl)
    st2 stats
  have h2 := processStream_skip_preserved g (mkConfig vc cutoff nl) true
    units (Or.inl rfl) st Stats.init
  exact ⟨h1, h2.1, h2.2⟩

theorem pass2Units_reads_sum (s : List Record) :
    ((pass2Units s).map (fun u => u.reads.length)).sum = s.length := by
  induction s with
  | nil => rfl
  | cons r t ih => simp [pass2Units, SeqUnit.reads] at ih ⊢; omega

/-- C3: conservation of reads.  At the end of pass 1 the reads-seen counter
equals the reads resolved directly (emitted in pass 1) plus the
deferred-read counter; and pass 2, run with no spill sink so that deferral
is impossible, resolves exactly the deferred reads, when the skip count is
zero. -/
theorem read_conservation (g : Oracle σ) (vc : Bool) (cutoff nl : Nat)
    (st : σ) (units : List SeqUnit)
    (hskip : (pass2 g vc cutoff nl
      (pass1 g vc cutoff nl st units)).stats.n_skipped = 0) :
    (pass1 g vc cutoff nl st units).stats.n_reads =
        (pass1 g vc cutoff nl st units).emitted.length +
          (pass1 g vc cutoff nl st units).stats.n_saved ∧
      (pass2 g vc cutoff nl (pass1 g vc cutoff nl st units)).emitted.length =
        (pass1 g vc cutoff nl st units).stats.n_saved := by
  constructor
  · have h := processStream_conserve g (mkConfig vc cutoff nl) true units st
      Stats.init
    have h0 : Stats.init.n_saved = 0 := rfl
    have h1 : Stats.init.n_reads = 0 := rfl
    simp only [pass1]
    omega
  · have hlen := processStream_emitted_length_noSaver g (mkConfig vc cutoff nl)
      (pass2Units (pass1 g vc cutoff nl st units).saved)
      (pass1 g vc cutoff nl st units).st
      (pass1 g vc cutoff nl st units).stats
    have hsaved := processStream_saved_count g (mkConfig vc cutoff nl) true
      units st Stats.init
    have h0 : Stats.init.n_saved = 0 := rfl
    rw [show pass2 g vc cutoff nl (pass1 g vc cutoff nl st units) =
      processStream g (mkConfig vc cutoff nl) false
        (pass1 g vc cutoff nl st units).st
        (pass1 g vc cutoff nl st units).stats
        (pass2Units (pass1 g vc cutoff nl st units).saved) from rfl]
    rw [hlen, pass2Units_reads_sum]
    simp only [pass1]
    omega

/-- C3 witness: a one-read run in which the read is deferred in pass 1 and
resolved in pass 2. -/
theorem read_conservation_witness :
    (pass2 demoOracle false 2 20
        (pass1 demoOracle false 2 20 ()
          [SeqUnit.single demoRead])).stats.n_skipped = 0 ∧
      ((pass1 demoOracle false 2 20 ()
          [SeqUnit.single demoRead]).stats.n_reads =
        (pass1 demoOracle false 2 20 ()
          [SeqUnit.single demoRead]).emitted.length +
          (pass1 demoOracle false 2 20 ()
            [SeqUnit.single demoRead]).stats.n_saved ∧
      (pass2 demoOracle false 2 20
          (pass1 demoOracle false 2 20 ()
            [SeqUnit.single demoRead])).emitted.length =
        (pass1 demoOracle false 2 20 ()
          [SeqUnit.single demoRead]).stats.n_saved) :=
  ⟨by decide, read_conservation demoOracle false 2 20 ()
    [SeqUnit.single demoRead] (by decide)⟩

theorem pass2Units_bp_sum (s : List Record) :
    ((pass2Units s).map
        (fun u => ((examineOf u).map List.length).sum)).sum =
      (s.map Record.len).sum := by
  induction s with
  | nil => rfl
  | cons r t ih =>
    simp [pass2Units, examineOf, SeqUnit.reads, clean_length,
      Record.len] at ih ⊢
    omega

/-- C4 counterexample: a run on a single 16-base read that is deferred in
pass 1 and emitted in pass 2.  Exactly one read enters the run and it is
emitted exactly once, yet the reads-seen counter ends at 2 and the
bases-seen counter at 32: the deferred read is counted again when pass 2
re-reads it, not exactly once. -/
theorem read_counted_twice_cex :
    (fullRun demoOracle false 2 20 ()
        [SeqUnit.single demoRead]).emitted = [demoRead] ∧
      (fullRun demoOracle false 2 20 ()
        [SeqUnit.single demoRead]).stats.n_reads = 2 ∧
      (fullRun demoOracle false 2 20 ()
        [SeqUnit.single demoRead]).stats.n_bp = 32 := by
  decide

/-- C4 amended: each read is counted in the reads-seen and bases-seen
counters once per pass through the trimmer, at input time: over a whole
run the counters equal the pass-1 input totals plus the deferred totals,
so a directly resolved read is counted once and a deferred read twice. -/
theorem reads_counted_once_per_pass (g : Oracle σ) (vc : Bool)
    (cutoff nl : Nat) (st : σ) (units : List SeqUnit) :
    (fullRun g vc cutoff nl st units).stats.n_reads =
        (units.map (fun u => u.reads.length)).sum +
          (pass1 g vc cutoff nl st units).saved.length ∧
      (fullRun g vc cutoff nl st units).stats.n_bp =
        (units.map (fun u => ((examineOf u).map List.length).sum)).sum +
          ((pass1 g vc cutoff nl st units).saved.map Record.len).sum := by
  constructor
  · have h1r := processStream_n_reads g (mkConfig vc cutoff nl) true units st
      Stats.init
    have h2r := processStream_n_reads g (mkConfig vc cutoff nl) false
      (pass2Units (pass1 g vc cutoff nl st units).saved)
      (pass1 g vc cutoff nl st units).st
      (pass1 g vc cutoff nl st units).stats
    rw [pass2Units_reads_sum] at h2r
    have h0 : Stats.init.n_reads = 0 := rfl
    rw [show (fullRun g vc cutoff nl st units).stats =
      (processStream g (mkConfig vc cutoff nl) false
        (pass1 g vc cutoff nl st units).st
        (pass1 g vc cutoff nl st units).stats
        (pass2Units (pass1 g vc cutoff nl st units).saved)).stats from rfl]
    simp only [pass1] at h2r ⊢
    omega
  · have h1b := processStream_n_bp g (mkConfig vc cutoff nl) true units st
      Stats.init
    have h2b := processStream_n_bp g (mkConfig vc cutoff nl) false
      (pass2Units (pass1 g vc cutoff nl st units).saved)
      (pass1 g vc cutoff nl st units).st
      (pass1 g vc cutoff nl st units).stats
    rw [pass2Units_bp_sum] at h2b
    have h0 : Stats.init.n_bp = 0 := rfl
    rw [show (fullRun g vc cutoff nl st units).stats =
      (processStream g (mkConfig vc cutoff nl) false
        (pass1 g vc cutoff nl st units).st
        (pass1 g vc cutoff nl st units).stats
        (pass2Units (pass1 g vc cutoff nl st units).saved)).stats from rfl]
    simp only [pass1] at h2b ⊢
    omega

/-- C8: evaluation at the failing input.  One 16-base read is deferred in
pass 1 (so pass 1 writes nothing) and emitted whole in pass 2.  The
written-base accumulator of `main` ends at 0 even though 16 bases were
written to the output sinks, because the pass-2 output loop increments only
the written-read accumulator; the reported statistic
`(1 - written_bp / n_bp) * 100` is therefore 100 where the claimed
formula over bases written across both passes gives 50. -/
theorem percent_bases_removed_bug :
    (fullRun demoOracle false 2 20 ()
        [SeqUnit.single demoRead]).written_bp = 0 ∧
      ((fullRun demoOracle false 2 20 ()
        [SeqUnit.single demoRead]).emitted.map Record.len).sum = 16 ∧
      percentBasesRemoved
        (fullRun demoOracle false 2 20 ()
          [SeqUnit.single demoRead]).written_bp
        (fullRun demoOracle false 2 20 ()
          [SeqUnit.single demoRead]).stats.n_bp = 100 ∧
      percentBasesRemoved
        ((fullRun demoOracle false 2 20 ()
          [SeqUnit.single demoRead]).emitted.map Record.len).sum
        (fullRun demoOracle false 2 20 ()
          [SeqUnit.single demoRead]).stats.n_bp = 50 := by
  have hwbp : (fullRun demoOracle false 2 20 ()
      [SeqUnit.single demoRead]).written_bp = 0 := by decide
  have hsum : ((fullRun demoOracle false 2 20 ()
      [SeqUnit.single demoRead]).emitted.map Record.len).sum = 16 := by
    decide
  have hnbp : (fullRun demoOracle false 2 20 ()
      [SeqUnit.single demoRead]).stats.n_bp = 32 := by decide
  refine ⟨hwbp, hsum, ?_, ?_⟩
  · rw [hwbp, hnbp]
    norm_num [percentBasesRemoved]
  · rw [hsum, hnbp]
    norm_num [percentBasesRemoved]

/-- C9: an input filename list containing a duplicate is rejected at the
top of `main`: the produced effect trace is exactly an exit with code 1 —
in particular no temp directory is created and no output, input or spill
file is opened or touched. -/
theorem duplicate_filenames_rejected (fns : List String)
    (h : ¬ fns.Nodup) :
    mainPrologue fns = [MainEffect.exitCode 1] ∧
      MainEffect.makeTempDir ∉ mainPrologue fns ∧
      (∀ f, MainEffect.openOutput f ∉ mainPrologue fns) ∧
      (∀ f, MainEffect.openInput f ∉ mainPrologue fns) ∧
      (∀ f, MainEffect.openSpill f ∉ mainPrologue fns) := by
  have hne : fns.dedup.length ≠ fns.length := by
    intro heq
    exact h (List.dedup_eq_self.mp
      ((List.dedup_sublist fns).eq_of_length heq))
  have hmain : mainPrologue fns = [MainEffect.exitCode 1] := by
    simp [mainPrologue, hne]
  refine ⟨hmain, ?_, ?_, ?_, ?_⟩ <;> simp [hmain]

/-- C9 witness: the duplicate list of scenario C is rejected. -/
theorem duplicate_filenames_rejected_witness :
    ¬ (["a.fa", "a.fa"] : List String).Nodup ∧
      mainPrologue ["a.fa", "a.fa"] = [MainEffect.exitCode 1] :=
  ⟨by decide,
    (duplicate_filenames_rejected ["a.fa", "a.fa"] (by decide)).1⟩
